import Mathlib

/-!
Verification of the directory reporter script `src/deno-lib-test/example.ts`,
which pulls the walk utility from jsr @std/fs@0.218.2 and runs:

  for await (const entry of walk(Deno.env.get("HOME") + "/Desktop")) {
    if (entry.isFile) {
      console.log(`File: ${entry.path}`);
    } else if (entry.isDirectory) {
      console.log(`Directory: ${entry.path}`);
    }
  }

The external walker is modelled as the stream of events it yields: entries
in traversal order, possibly ended by a traversal failure.  The loop body is
embedded as a recursive function over that stream, accumulating the lines
written to standard output by console.log.
-/

namespace DenoWalkReporter

/-- A filesystem entry as yielded by the external walker: a path string and
the boolean classification flags the walker exposes. -/
structure WalkEntry where
  path : String
  isFile : Bool
  isDirectory : Bool
  isSymlink : Bool
deriving DecidableEq, Repr

/-- One event of the asynchronous iteration over the walker: either the
walker yields an entry, or it raises a traversal failure carrying an error
message. -/
inductive WalkEvent where
  | yield : WalkEntry → WalkEvent
  | fail : String → WalkEvent
deriving DecidableEq, Repr

/-- Options record of the external walk collaborator.  The script under
verification never constructs one; the type is present only so the shape of
the call site (a single argument, the options argument absent) can be
stated. -/
structure WalkOptions where
  maxDepth : Option Nat
  includeFiles : Option Bool
  includeDirs : Option Bool
  includeSymlinks : Option Bool
  followSymlinks : Option Bool
  canonicalize : Option Bool
  exts : Option (List String)
  skip : Option (List String)

/-- JavaScript ToString coercion of the value Deno.env.get returns: a set
variable is its string, and an unset variable is the value undefined, which
the string concatenation operator renders as the string "undefined". -/
def jsEnvToString : Option String → String
  | some v => v
  | none => "undefined"

/-- Root path built on line 3 of example.ts by the JavaScript expression
Deno.env.get("HOME") + "/Desktop". -/
def rootPath (home : Option String) : String :=
  jsEnvToString home ++ "/Desktop"

/-- One call made to the external walk collaborator: the root argument and
the options argument, none when omitted at the call site. -/
structure WalkCall where
  root : String
  options : Option WalkOptions

/-- Trace of the walker invocations the script performs: exactly one call,
on line 3, passing only the constructed root path and no options. -/
def programCalls (home : Option String) : List WalkCall :=
  [⟨rootPath home, none⟩]

/-- The for-await loop of example.ts, lines 3 to 9, as a function from the
event stream to the final list of stdout lines paired with the propagated
error.  The argument out holds the lines already emitted; each console.log
call appends one line; a failure event ends the iteration at once and
carries its message out unmodified, with no catch anywhere. -/
def runLoop : List WalkEvent → List String → List String × Option String
  | [], out => (out, none)
  | WalkEvent.yield e :: rest, out =>
      if e.isFile then
        runLoop rest (out ++ ["File: " ++ e.path])
      else if e.isDirectory then
        runLoop rest (out ++ ["Directory: " ++ e.path])
      else
        runLoop rest out
  | WalkEvent.fail msg :: _, out => (out, some msg)

/-- The whole script: read HOME once, build the root path, call the walker
once with the options argument omitted, and run the loop on the resulting
event stream starting from an empty stdout. -/
def program (home : Option String)
    (walker : String → Option WalkOptions → List WalkEvent) :
    List String × Option String :=
  runLoop (walker (rootPath home) none) []

/-- Concatenation of a sequence of writes into the full stdout stream. -/
def writesOut : List String → String
  | [] => ""
  | l :: rest => l ++ writesOut rest

/-- Standard output bytes of a run: console.log terminates every line it
writes with a newline, and the script writes nothing else. -/
def stdoutString (events : List WalkEvent) : String :=
  writesOut (((runLoop events []).1).map (fun l => l ++ "\n"))

/-- Per-entry stdout contribution as the specification words it: one
newline-terminated File line per file entry, one newline-terminated
Directory line per directory entry, nothing for any other entry. -/
def specEntryOutput (e : WalkEntry) : String :=
  if e.isFile then "File: " ++ e.path ++ "\n"
  else if e.isDirectory then "Directory: " ++ e.path ++ "\n"
  else ""

/-- Accumulator lemma: the lines a run emits extend the lines already
emitted. -/
theorem runLoop_out_append (events : List WalkEvent) (out : List String) :
    (runLoop events out).1 = out ++ (runLoop events []).1 := by
  induction events generalizing out with
  | nil => simp [runLoop]
  | cons ev rest ih =>
      cases ev with
      | yield e =>
          cases hf : e.isFile with
          | true =>
              have h1 : ∀ o, runLoop (WalkEvent.yield e :: rest) o =
                  runLoop rest (o ++ ["File: " ++ e.path]) := by
                intro o
                simp [runLoop, hf]
              rw [h1, h1, ih (out ++ (["File: " ++ e.path])),
                ih ([] ++ (["File: " ++ e.path]))]
              simp [List.append_assoc]
          | false =>
              cases hd : e.isDirectory with
              | true =>
                  have h1 : ∀ o, runLoop (WalkEvent.yield e :: rest) o =
                      runLoop rest (o ++ ["Directory: " ++ e.path]) := by
                    intro o
                    simp [runLoop, hf, hd]
                  rw [h1, h1, ih (out ++ (["Directory: " ++ e.path])),
                    ih ([] ++ (["Directory: " ++ e.path]))]
                  simp [List.append_assoc]
              | false =>
                  have h1 : ∀ o, runLoop (WalkEvent.yield e :: rest) o =
                      runLoop rest o := by
                    intro o
                    simp [runLoop, hf, hd]
                  rw [h1, h1]
                  exact ih out
      | fail msg => simp [runLoop]

/-- C1: for a single yielded entry the loop emits exactly the line
File: path when the entry is classified as a file, otherwise the line
Directory: path when it is classified as a directory, and emits nothing
(and raises nothing) for an entry that is neither. -/
theorem per_entry_output (e : WalkEntry) :
    (e.isFile = true →
      runLoop [WalkEvent.yield e] [] = (["File: " ++ e.path], none)) ∧
    (e.isFile = false → e.isDirectory = true →
      runLoop [WalkEvent.yield e] [] = (["Directory: " ++ e.path], none)) ∧
    (e.isFile = false → e.isDirectory = false →
      runLoop [WalkEvent.yield e] [] = ([], none)) := by
  refine ⟨fun hf => ?_, fun hf hd => ?_, fun hf hd => ?_⟩
  case refine_1 => simp [runLoop, hf]
  case refine_2 => simp [runLoop, hf, hd]
  case refine_3 => simp [runLoop, hf, hd]

/-- Witness for C1 at three concrete entries: a file, a directory, and a
symlink entry that is neither a file nor a directory. -/
theorem per_entry_output_witness :
    runLoop [WalkEvent.yield ⟨"/d/a.txt", true, false, false⟩] [] =
        (["File: /d/a.txt"], none) ∧
    runLoop [WalkEvent.yield ⟨"/d/sub", false, true, false⟩] [] =
        (["Directory: /d/sub"], none) ∧
    runLoop [WalkEvent.yield ⟨"/d/link", false, false, true⟩] [] =
        ([], none) :=
  ⟨(per_entry_output ⟨"/d/a.txt", true, false, false⟩).1 rfl,
   (per_entry_output ⟨"/d/sub", false, true, false⟩).2.1 rfl rfl,
   (per_entry_output ⟨"/d/link", false, false, true⟩).2.2 rfl rfl⟩

/-- C2 counterexample: with HOME unset the root path handed to the walker
is not the string "/Desktop", because JavaScript coerces the undefined
operand of + to the string "undefined". -/
theorem unset_home_not_slash_desktop : rootPath none ≠ "/Desktop" := by
  decide

/-- C2 amended: if the HOME environment variable is unset, the
concatenation coerces the undefined value to the string "undefined", so
the root path passed to the walker is the string "undefined/Desktop", a
relative-looking path under a directory literally named "undefined". -/
theorem unset_home_root :
    rootPath none = "undefined/Desktop" ∧
    programCalls none = [⟨"undefined/Desktop", none⟩] :=
  ⟨rfl, rfl⟩

/-- C3: for every set value v of HOME, the root path handed to the walker
equals v concatenated with the literal suffix "/Desktop", passed through
unchanged to the single walker call with no validation of any kind. -/
theorem set_home_root (v : String) :
    rootPath (some v) = v ++ "/Desktop" ∧
    programCalls (some v) = [⟨v ++ "/Desktop", none⟩] :=
  ⟨rfl, rfl⟩

/-- C4: the loop catches nothing.  Whatever failure the walker raises
after yielding any prefix of entries propagates out unmodified; every
entry yielded before the failure has already produced its output, and no
line is produced at or after the failure, whatever events would have
followed. -/
theorem error_propagation (entries : List WalkEntry) (msg : String)
    (rest : List WalkEvent) :
    runLoop (entries.map WalkEvent.yield ++ WalkEvent.fail msg :: rest) [] =
      ((runLoop (entries.map WalkEvent.yield) []).1, some msg) := by
  have key : ∀ (evs : List WalkEntry) (out : List String),
      runLoop (evs.map WalkEvent.yield ++ WalkEvent.fail msg :: rest) out =
        ((runLoop (evs.map WalkEvent.yield) out).1, some msg) := by
    intro evs
    induction evs with
    | nil => intro out; simp [runLoop]
    | cons e es ih =>
        intro out
        cases hf : e.isFile with
        | true => simp [runLoop, hf, ih]
        | false =>
            cases hd : e.isDirectory with
            | true => simp [runLoop, hf, hd, ih]
            | false => simp [runLoop, hf, hd, ih]
  exact key entries []

/-- Concatenating two sequences of writes concatenates the streams. -/
theorem writesOut_append (a b : List String) :
    writesOut (a ++ b) = writesOut a ++ writesOut b := by
  induction a with
  | nil => simp [writesOut]
  | cons x xs ih => simp [writesOut, ih, String.append_assoc]

/-- C5: the complete standard output of a normal run is exactly the
per-entry contributions in walk order: one newline-terminated File line
per file entry, one newline-terminated Directory line per directory
entry, the empty contribution for every other entry, and nothing else
(no header, no trailing summary). -/
theorem stdout_exact (entries : List WalkEntry) :
    stdoutString (entries.map WalkEvent.yield) =
      writesOut (entries.map specEntryOutput) := by
  induction entries with
  | nil => simp [stdoutString, runLoop, writesOut]
  | cons e es ih =>
      cases hf : e.isFile with
      | true =>
          have h1 : runLoop (WalkEvent.yield e :: es.map WalkEvent.yield) [] =
              runLoop (es.map WalkEvent.yield) ["File: " ++ e.path] := by
            simp [runLoop, hf]
          simp only [List.map_cons, stdoutString, h1,
            runLoop_out_append (es.map WalkEvent.yield) (["File: " ++ e.path]),
            List.map_append, writesOut_append]
          simp only [stdoutString] at ih
          rw [ih]
          simp [writesOut, specEntryOutput, hf, String.append_assoc]
      | false =>
          cases hd : e.isDirectory with
          | true =>
              have h1 : runLoop (WalkEvent.yield e :: es.map WalkEvent.yield) [] =
                  runLoop (es.map WalkEvent.yield) ["Directory: " ++ e.path] := by
                simp [runLoop, hf, hd]
              simp only [List.map_cons, stdoutString, h1,
                runLoop_out_append (es.map WalkEvent.yield)
                  (["Directory: " ++ e.path]),
                List.map_append, writesOut_append]
              simp only [stdoutString] at ih
              rw [ih]
              simp [writesOut, specEntryOutput, hf, hd, String.append_assoc]
          | false =>
              have h1 : runLoop (WalkEvent.yield e :: es.map WalkEvent.yield) [] =
                  runLoop (es.map WalkEvent.yield) [] := by
                simp [runLoop, hf, hd]
              simp only [List.map_cons, stdoutString, h1]
              simp only [stdoutString] at ih
              rw [ih]
              simp [writesOut, specEntryOutput, hf, hd]

/-- C6: the walker is invoked exactly once, with the root path string as
its only argument and the options argument omitted, so the run is fully
determined by the collaborator's default (no-options) behavior: any two
walkers that agree on default-options calls give the same run. -/
theorem walker_single_default_call (home : Option String)
    (w1 w2 : String → Option WalkOptions → List WalkEvent)
    (h : ∀ r, w1 r none = w2 r none) :
    (programCalls home).length = 1 ∧
    (∀ c ∈ programCalls home, c.root = rootPath home ∧ c.options = none) ∧
    program home w1 = program home w2 := by
  refine ⟨rfl, ?_, ?_⟩
  · intro c hc
    simp only [programCalls, List.mem_singleton] at hc
    subst hc
    exact ⟨rfl, rfl⟩
  · unfold program
    rw [h]

/-- Witness for C6: a concrete home value and two concrete walkers that
agree on default-options calls. -/
theorem walker_single_default_call_witness :
    (∀ r, (fun (_ : String) (_ : Option WalkOptions) =>
        ([] : List WalkEvent)) r none =
      (fun (_ : String) (o : Option WalkOptions) =>
        match o with
        | none => ([] : List WalkEvent)
        | some _ => [WalkEvent.fail "unused options branch"]) r none) ∧
    ((programCalls (some "/home/u")).length = 1 ∧
      (∀ c ∈ programCalls (some "/home/u"),
        c.root = rootPath (some "/home/u") ∧ c.options = none) ∧
      program (some "/home/u")
          (fun (_ : String) (_ : Option WalkOptions) => ([] : List WalkEvent)) =
        program (some "/home/u")
          (fun (_ : String) (o : Option WalkOptions) =>
            match o with
            | none => ([] : List WalkEvent)
            | some _ => [WalkEvent.fail "unused options branch"])) :=
  ⟨fun _ => rfl,
   walker_single_default_call (some "/home/u") _ _ (fun _ => rfl)⟩

/-- C7: two-run determinism.  Two runs whose walkers hand the loop the
same sequence of walk events at the root produce identical standard
output and identical outcome, in both order and content. -/
theorem two_run_determinism (home : Option String)
    (w1 w2 : String → Option WalkOptions → List WalkEvent)
    (h : w1 (rootPath home) none = w2 (rootPath home) none) :
    program home w1 = program home w2 := by
  unfold program
  rw [h]

/-- Witness for C7: two concrete walkers yielding the same entry stream
on the concrete root produce the same run. -/
theorem two_run_determinism_witness :
    (fun (_ : String) (_ : Option WalkOptions) =>
        [WalkEvent.yield ⟨"/home/u/Desktop/a", true, false, false⟩])
        (rootPath (some "/home/u")) none =
      (fun (r : String) (_ : Option WalkOptions) =>
        if r = "/home/u/Desktop" then
          [WalkEvent.yield ⟨"/home/u/Desktop/a", true, false, false⟩]
        else []) (rootPath (some "/home/u")) none ∧
    program (some "/home/u")
        (fun (_ : String) (_ : Option WalkOptions) =>
          [WalkEvent.yield ⟨"/home/u/Desktop/a", true, false, false⟩]) =
      program (some "/home/u")
        (fun (r : String) (_ : Option WalkOptions) =>
          if r = "/home/u/Desktop" then
            [WalkEvent.yield ⟨"/home/u/Desktop/a", true, false, false⟩]
          else []) :=
  ⟨by decide,
   two_run_determinism (some "/home/u") _ _ (by decide)⟩

/-- One observable step of the cooperative iteration protocol: the loop
requests the next entry from the walker, the walker yields an entry, the
loop emits a line, or the loop finishes after exhaustion. -/
inductive Action where
  | request : Action
  | yielded : WalkEntry → Action
  | emit : String → Action
  | finish : Action
deriving DecidableEq, Repr

/-- Small-step trace of the for-await loop: the loop issues one request
before each entry, then fully processes that entry, emitting its line if
any, before issuing the next request; the final request finds the stream
exhausted and the loop finishes.  A failure surfaces at the request that
hits it, before any further processing. -/
def loopTrace : List WalkEvent → List Action
  | [] => [Action.request, Action.finish]
  | WalkEvent.yield e :: rest =>
      if e.isFile then
        Action.request :: Action.yielded e ::
          Action.emit ("File: " ++ e.path) :: loopTrace rest
      else if e.isDirectory then
        Action.request :: Action.yielded e ::
          Action.emit ("Directory: " ++ e.path) :: loopTrace rest
      else
        Action.request :: Action.yielded e :: loopTrace rest
  | WalkEvent.fail _ :: _ => [Action.request]

/-- Projection of a trace step to the entry it consumes, if any. -/
def actionEntry : Action → Option WalkEntry
  | Action.yielded e => some e
  | _ => none

/-- Projection of a trace step to the line it emits, if any. -/
def actionLine : Action → Option String
  | Action.emit s => some s
  | _ => none

/-- C8: on a normal run the walk sequence is consumed exactly once and
strictly sequentially: the trace consumes precisely the yielded entries,
each once, in walker order, with none left over; its emitted lines are
exactly the run's stdout lines; and it holds exactly one request per
entry plus the final one that observes exhaustion, so each entry is fully
processed before the next is requested. -/
theorem sequential_single_consumption (entries : List WalkEntry) :
    (loopTrace (entries.map WalkEvent.yield)).filterMap actionEntry =
        entries ∧
    (loopTrace (entries.map WalkEvent.yield)).filterMap actionLine =
        (runLoop (entries.map WalkEvent.yield) []).1 ∧
    (loopTrace (entries.map WalkEvent.yield)).count Action.request =
        entries.length + 1 := by
  induction entries with
  | nil =>
      refine ⟨rfl, rfl, ?_⟩
      simp [loopTrace, actionEntry, actionLine, List.count_cons]
  | cons e es ih =>
      obtain ⟨ihEnt, ihLine, ihReq⟩ := ih
      cases hf : e.isFile with
      | true =>
          have h1 : runLoop (WalkEvent.yield e :: es.map WalkEvent.yield) [] =
              runLoop (es.map WalkEvent.yield) ["File: " ++ e.path] := by
            simp [runLoop, hf]
          refine ⟨?_, ?_, ?_⟩
          · simp [loopTrace, hf, actionEntry, ihEnt]
          · simp only [List.map_cons]
            rw [h1, runLoop_out_append (es.map WalkEvent.yield)
              (["File: " ++ e.path])]
            simp [loopTrace, hf, actionLine, ihLine]
          · simp [loopTrace, hf, List.count_cons, actionEntry, ihReq]
      | false =>
          cases hd : e.isDirectory with
          | true =>
              have h1 : runLoop (WalkEvent.yield e :: es.map WalkEvent.yield) [] =
                  runLoop (es.map WalkEvent.yield)
                    ["Directory: " ++ e.path] := by
                simp [runLoop, hf, hd]
              refine ⟨?_, ?_, ?_⟩
              · simp [loopTrace, hf, hd, actionEntry, ihEnt]
              · simp only [List.map_cons]
                rw [h1, runLoop_out_append (es.map WalkEvent.yield)
                  (["Directory: " ++ e.path])]
                simp [loopTrace, hf, hd, actionLine, ihLine]
              · simp [loopTrace, hf, hd, List.count_cons, ihReq]
          | false =>
              have h1 : runLoop (WalkEvent.yield e :: es.map WalkEvent.yield) [] =
                  runLoop (es.map WalkEvent.yield) [] := by
                simp [runLoop, hf, hd]
              refine ⟨?_, ?_, ?_⟩
              · simp [loopTrace, hf, hd, actionEntry, ihEnt]
              · simp only [List.map_cons]
                rw [h1]
                simp [loopTrace, hf, hd, actionLine, ihLine]
              · simp [loopTrace, hf, hd, List.count_cons, ihReq]

/-- Helper: a run over entries that are all flagged as files appends one
File line per entry, in order, and ends normally. -/
theorem runLoop_all_files (files : List WalkEntry)
    (hfiles : ∀ e ∈ files, e.isFile = true) (out : List String) :
    runLoop (files.map WalkEvent.yield) out =
      (out ++ files.map (fun e => "File: " ++ e.path), none) := by
  induction files generalizing out with
  | nil => simp [runLoop]
  | cons e es ih =>
      have he : e.isFile = true := hfiles e (by simp)
      have hes : ∀ x ∈ es, x.isFile = true := by
        intro x hx
        exact hfiles x (by simp [hx])
      simp only [List.map_cons]
      have h1 : runLoop (WalkEvent.yield e :: es.map WalkEvent.yield) out =
          runLoop (es.map WalkEvent.yield) (out ++ ["File: " ++ e.path]) := by
        simp [runLoop, he]
      rw [h1, ih hes]
      simp [List.append_assoc]

/-- C9: for a walk sequence whose non-root entries are all files, the run
emits exactly one File line per file, each carrying the walker-reported
path, preceded by at most one Directory line, present exactly when the
walker yields the root directory itself as an entry, and ends normally. -/
theorem all_files_run (rootEntry : Option WalkEntry) (files : List WalkEntry)
    (hfiles : ∀ e ∈ files, e.isFile = true)
    (hroot : ∀ r, rootEntry = some r → r.isFile = false ∧ r.isDirectory = true) :
    runLoop ((rootEntry.toList ++ files).map WalkEvent.yield) [] =
      (rootEntry.toList.map (fun r => "Directory: " ++ r.path) ++
        files.map (fun e => "File: " ++ e.path), none) := by
  cases rootEntry with
  | none =>
      simpa using runLoop_all_files files hfiles []
  | some r =>
      obtain ⟨h1, h2⟩ := hroot r rfl
      have hstep : runLoop (WalkEvent.yield r :: files.map WalkEvent.yield) [] =
          runLoop (files.map WalkEvent.yield) ["Directory: " ++ r.path] := by
        simp [runLoop, h1, h2]
      simp [Option.toList_some, List.cons_append, List.map_cons,
        List.nil_append, hstep, runLoop_all_files files hfiles]

/-- Witness for C9: a concrete root directory entry followed by two
concrete file entries. -/
theorem all_files_run_witness :
    runLoop ((((some ⟨"/t/Desktop", false, true, false⟩ :
          Option WalkEntry)).toList ++
        ([⟨"/t/Desktop/a.txt", true, false, false⟩,
          ⟨"/t/Desktop/b.txt", true, false, false⟩] :
          List WalkEntry)).map WalkEvent.yield) [] =
      (["Directory: /t/Desktop", "File: /t/Desktop/a.txt",
        "File: /t/Desktop/b.txt"], none) := by
  have h := all_files_run (some ⟨"/t/Desktop", false, true, false⟩)
    ([⟨"/t/Desktop/a.txt", true, false, false⟩,
      ⟨"/t/Desktop/b.txt", true, false, false⟩] : List WalkEntry)
    (by decide)
    (by
      intro r hr
      injection hr with h
      subst h
      exact ⟨rfl, rfl⟩)
  simpa using h

/-- C10: file classification takes precedence.  For an entry whose isFile
and isDirectory flags are both true, the run emits exactly one line and it
is the File line, never the Directory line, because the directory branch
is only reached when the file flag is false. -/
theorem file_flag_precedence (e : WalkEntry) (hf : e.isFile = true)
    (_hd : e.isDirectory = true) :
    runLoop [WalkEvent.yield e] [] = (["File: " ++ e.path], none) := by
  simp [runLoop, hf]

/-- Witness for C10 at a concrete entry with both flags true. -/
theorem file_flag_precedence_witness :
    (⟨"/t/both", true, true, false⟩ : WalkEntry).isFile = true ∧
    (⟨"/t/both", true, true, false⟩ : WalkEntry).isDirectory = true ∧
    runLoop [WalkEvent.yield ⟨"/t/both", true, true, false⟩] [] =
      (["File: /t/both"], none) :=
  ⟨rfl, rfl, file_flag_precedence ⟨"/t/both", true, true, false⟩ rfl rfl⟩

end DenoWalkReporter
